import Mathlib

/-!
Verification of the daily-reporting generator (`main.go`).

The program fetches a user's GitHub activity events, keeps the events
created on the target calendar day (`getDailyEvents`), and formats a
report (`formatEvents`) that classifies pull-request events into status
lines, deduplicated by pull-request title.  This file gives a shallow
embedding of that logic and proves the testable properties of the
specification against it.
-/

/-- One GitHub activity event, as far as `main.go` reads it.

The Go code works on a decoded `map[string]interface\x7b\x7d` and reads each
leaf with a comma-ok type assertion, so a leaf that is absent or has the
wrong type yields the Go zero value.  Each `Option` field here is `none`
exactly in that case.  The fields are the leaf paths the program reads:
`type_` is `type`, `created_at` is `created_at`, `payloadAction` is
`payload.action`, `prMerged` is `payload.pull_request.merged`, `prTitle`
is `payload.pull_request.title`, `prUserLogin` is
`payload.pull_request.user.login`, and `reviewUserLogin` is
`payload.review.user.login`. -/
structure Event where
  type_ : Option String
  created_at : Option String
  payloadAction : Option String
  prMerged : Option Bool
  prTitle : Option String
  prUserLogin : Option String
  reviewUserLogin : Option String
deriving DecidableEq

/-- Decimal digit test used by the RFC 3339 parser. -/
def isDigit (c : Char) : Bool := c.isDigit

/-- Numeric value of a decimal digit character. -/
def digitVal (c : Char) : Nat := c.toNat - '0'.toNat

/-- Two-digit decimal number. -/
def n2 (a b : Char) : Nat := 10 * digitVal a + digitVal b

/-- Four-digit decimal number. -/
def n4 (a b c d : Char) : Nat :=
  1000 * digitVal a + 100 * digitVal b + 10 * digitVal c + digitVal d

/-- Gregorian leap-year rule, as in Go's `time` package. -/
def isLeap (y : Nat) : Bool := (y % 4 == 0 && y % 100 != 0) || y % 400 == 0

/-- Number of days of month `m` of year `y` (Go's `daysIn`). -/
def daysInMonth (y m : Nat) : Nat :=
  if m == 2 then (if isLeap y then 29 else 28)
  else if m == 4 || m == 6 || m == 9 || m == 11 then 30
  else 31

/-- The components `time.Parse(time.RFC3339, s)` yields: the wall-clock
fields exactly as written in the string, plus the zone offset in minutes
east of UTC.  Go keeps the parsed offset as the resulting time's location,
so formatting the parsed time reads these wall-clock fields unchanged. -/
structure GoTime where
  year : Nat
  month : Nat
  day : Nat
  hour : Nat
  minute : Nat
  second : Nat
  offsetMin : Int
deriving DecidableEq

/-- Skip an optional fractional-seconds part (a dot followed by at least
one digit), as Go's RFC 3339 parsing accepts. -/
def dropFrac : List Char → Option (List Char)
  | '.' :: rest =>
    if (rest.takeWhile isDigit).isEmpty then none
    else some (rest.dropWhile isDigit)
  | l => some l

/-- Parse the zone suffix of an RFC 3339 timestamp: `Z` or `+hh:mm` or
`-hh:mm`, returning the offset in minutes east of UTC. -/
def parseOffset : List Char → Option Int
  | ['Z'] => some 0
  | [sg, h1, h2, ':', m1, m2] =>
    if (sg == '+' || sg == '-') && isDigit h1 && isDigit h2 && isDigit m1 && isDigit m2 then
      if n2 h1 h2 ≤ 23 && n2 m1 m2 ≤ 59 then
        some (if sg == '+' then (n2 h1 h2 * 60 + n2 m1 m2 : Int)
              else -(n2 h1 h2 * 60 + n2 m1 m2 : Int))
      else none
    else none
  | _ => none

/-- `time.Parse(time.RFC3339, str)`: a full date-time
`YYYY-MM-DDThh:mm:ss` with optional fractional seconds and a `Z` or
`±hh:mm` zone, with the component ranges validated.  Returns `none` where
Go returns a parse error. -/
def parseRFC3339 (str : String) : Option GoTime :=
  match str.data with
  | y1 :: y2 :: y3 :: y4 :: '-' :: m1 :: m2 :: '-' :: d1 :: d2 :: 'T' ::
      h1 :: h2 :: ':' :: i1 :: i2 :: ':' :: s1 :: s2 :: rest =>
    if isDigit y1 && isDigit y2 && isDigit y3 && isDigit y4 &&
       isDigit m1 && isDigit m2 && isDigit d1 && isDigit d2 &&
       isDigit h1 && isDigit h2 && isDigit i1 && isDigit i2 &&
       isDigit s1 && isDigit s2 then
      match dropFrac rest with
      | none => none
      | some tz =>
        match parseOffset tz with
        | none => none
        | some off =>
          if 1 ≤ n2 m1 m2 && n2 m1 m2 ≤ 12 && 1 ≤ n2 d1 d2 &&
             n2 d1 d2 ≤ daysInMonth (n4 y1 y2 y3 y4) (n2 m1 m2) &&
             n2 h1 h2 ≤ 23 && n2 i1 i2 ≤ 59 && n2 s1 s2 ≤ 59 then
            some ⟨n4 y1 y2 y3 y4, n2 m1 m2, n2 d1 d2, n2 h1 h2, n2 i1 i2, n2 s1 s2, off⟩
          else none
    else none
  | _ => none

/-- Zero-pad a number to two digits (Go's `02` format verbs). -/
def pad2 (n : Nat) : String := if n < 10 then "0" ++ toString n else toString n

/-- Zero-pad a number to four digits (Go's `2006` year verb). -/
def pad4 (n : Nat) : String :=
  if n < 10 then "000" ++ toString n
  else if n < 100 then "00" ++ toString n
  else if n < 1000 then "0" ++ toString n
  else toString n

/-- `t.Format("2006-01-02")` on a parsed time: Go formats in the time's
own location, which after `time.Parse` is the parsed offset, so this is
the wall-clock date exactly as written in the timestamp. -/
def formatDate2006 (t : GoTime) : String :=
  pad4 t.year ++ "-" ++ pad2 t.month ++ "-" ++ pad2 t.day

/-- Go's three-letter month names for the `Jan` format verb. -/
def monthName : Nat → String
  | 1 => "Jan"
  | 2 => "Feb"
  | 3 => "Mar"
  | 4 => "Apr"
  | 5 => "May"
  | 6 => "Jun"
  | 7 => "Jul"
  | 8 => "Aug"
  | 9 => "Sep"
  | 10 => "Oct"
  | 11 => "Nov"
  | 12 => "Dec"
  | _ => ""

/-- `time.Now().Format("Jan 02, 2006")`: the report's date header text. -/
def formatHeader (y m d : Nat) : String :=
  monthName m ++ " " ++ pad2 d ++ ", " ++ pad4 y

/-- The per-event test of the loop in `getDailyEvents` (main.go:85-95):
keep an event iff `created_at` is a string, parses as RFC 3339, and the
parsed time formatted as `2006-01-02` equals the target date string. -/
def keepEvent (date : String) (e : Event) : Bool :=
  match e.created_at with
  | none => false
  | some s =>
    match parseRFC3339 s with
    | some t => formatDate2006 t == date
    | none => false

/-- `getDailyEvents` (main.go:58-99) restricted to its pure part: the
filter over the already-decoded event list. -/
def getDailyEvents (date : String) (events : List Event) : List Event :=
  events.filter (keepEvent date)

/-- Days since 1970-01-01 of a Gregorian calendar date (civil-days
algorithm); used only to state UTC-day properties about timestamps. -/
def epochDay (y m d : Int) : Int :=
  let ys : Int := if m ≤ 2 then y - 1 else y
  let era : Int := ys.fdiv 400
  let yoe : Int := ys - era * 400
  let mp : Int := (m + 9) % 12
  let doy : Int := (153 * mp + 2).fdiv 5 + d - 1
  let doe : Int := yoe * 365 + yoe.fdiv 4 - yoe.fdiv 100 + doy
  era * 146097 + doe - 719468

/-- The UTC calendar day (as an epoch day number) of the instant a parsed
timestamp denotes: wall-clock seconds minus the zone offset, floored to a
day. -/
def utcEpochDay (t : GoTime) : Int :=
  (epochDay t.year t.month t.day * 86400 +
    (t.hour : Int) * 3600 + (t.minute : Int) * 60 + (t.second : Int) -
    t.offsetMin * 60).fdiv 86400

/-- The two event types the `switch` in `formatEvents` handles. -/
def isPRType (ty : String) : Bool :=
  ty == "PullRequestEvent" || ty == "PullRequestReviewEvent"

/-- An event that falls through the `switch` in `formatEvents` with all
fields left at their zero values: its `type` is a string but neither
pull-request type.  (`none` means the type assertion failed, in which
case the loop `continue`s.) -/
def nonPR (e : Event) : Bool :=
  match e.type_ with
  | some ty => !(isPRType ty)
  | none => true

/-- `prTitle` as the `switch eventType` (main.go:120-132) extracts it:
both pull-request cases read `payload.pull_request.title`; any other type
leaves the Go zero value `""`. -/
def extractTitle (e : Event) : String :=
  match e.type_ with
  | some ty =>
    if ty = "PullRequestEvent" then e.prTitle.getD ""
    else if ty = "PullRequestReviewEvent" then e.prTitle.getD ""
    else ""
  | none => ""

/-- `action` as the `switch` extracts it: both pull-request cases read
`payload.action`. -/
def extractAction (e : Event) : String :=
  match e.type_ with
  | some ty =>
    if ty = "PullRequestEvent" then e.payloadAction.getD ""
    else if ty = "PullRequestReviewEvent" then e.payloadAction.getD ""
    else ""
  | none => ""

/-- `merged` as the `switch` extracts it: both pull-request cases read
`payload.pull_request.merged`. -/
def extractMerged (e : Event) : Bool :=
  match e.type_ with
  | some ty =>
    if ty = "PullRequestEvent" then e.prMerged.getD false
    else if ty = "PullRequestReviewEvent" then e.prMerged.getD false
    else false
  | none => false

/-- `author` as the `switch` extracts it: `payload.pull_request.user.login`
for a `PullRequestEvent` and `payload.review.user.login` for a
`PullRequestReviewEvent`. -/
def extractAuthor (e : Event) : String :=
  match e.type_ with
  | some ty =>
    if ty = "PullRequestEvent" then e.prUserLogin.getD ""
    else if ty = "PullRequestReviewEvent" then e.reviewUserLogin.getD ""
    else ""
  | none => ""

/-- The status `switch` of `formatEvents` (main.go:138-154), with the
self username (read there from `GITHUB_USERNAME`, constant for the run)
passed explicitly.  Go's `switch` with case guards is a first-match-wins
chain; no case matching leaves the zero value `""`. -/
def classifyStatus (self author action : String) (merged : Bool) : String :=
  if author == self && action == "opened" && merged then "Done"
  else if author == self && action == "opened" then "In Review"
  else if author == self && action == "closed" && merged then "Done"
  else if author == self && merged then "Done"
  else if author != self && action == "closed" && merged then "Reviewed and merged"
  else if author != self && action == "closed" then "Reviewed"
  else ""

/-- The event loop of `formatEvents` (main.go:111-161) as the list of
`(status, title)` pairs it appends, threading the `seenTitles` set:
skip an event whose `type` is not a string; otherwise, if its extracted
title is unseen, mark it seen, classify, and emit the pair only when both
status and title are non-empty. -/
def classifyEvents (self : String) : List Event → List String → List (String × String)
  | [], _ => []
  | e :: rest, seen =>
    match e.type_ with
    | none => classifyEvents self rest seen
    | some _ =>
      if extractTitle e ∈ seen then classifyEvents self rest seen
      else
        (if classifyStatus self (extractAuthor e) (extractAction e) (extractMerged e) ≠ "" ∧
            extractTitle e ≠ "" then
          [(classifyStatus self (extractAuthor e) (extractAction e) (extractMerged e),
            extractTitle e)]
        else []) ++ classifyEvents self rest (extractTitle e :: seen)

/-- The text of one classified report line, `"• status | title"`. -/
def classifiedLine (p : String × String) : String := "• " ++ p.1 ++ " | " ++ p.2

/-- `formatEvents` (main.go:101-166): header from the clock (passed here
as the already-formatted `header` string), two fixed lines, one line per
emitted pair, and the fixed trailing block, each line ending in a
newline. -/
def formatEvents (self header : String) (events : List Event) : String :=
  header ++ ":\n" ++
  "• Done | Attended frail-check meeting\n" ++
  "• Done | Attended frail-check followup meeting\n" ++
  String.join ((classifyEvents self events []).map (fun p => classifiedLine p ++ "\n")) ++
  "Next:\n• Continue with assigned task and R&D\n"

/-- The report as its list of newline-terminated lines, in order:
`formatEvents` is the concatenation of these with `"\n"` after each. -/
def reportLines (self header : String) (events : List Event) : List String :=
  ([header ++ ":", "• Done | Attended frail-check meeting",
    "• Done | Attended frail-check followup meeting"]
  ++ (classifyEvents self events []).map classifiedLine)
  ++ ["Next:", "• Continue with assigned task and R&D"]

/-- The title of a report line: the part after the first `" | "`
separator, if any; lines without the separator carry no title. -/
def afterSep : List Char → Option (List Char)
  | ' ' :: '|' :: ' ' :: rest => some rest
  | _ :: rest => afterSep rest
  | [] => none

/-- The title of a report line as a string. -/
def lineTitle (line : String) : Option String :=
  (afterSep line.data).map fun cs => String.mk cs

/-- Rule `k` of the spec's status table (section 4.3), which is also the
`k`-th case guard of the status `switch` in `formatEvents`; `0` and
anything past `6` hold never. -/
def ruleHolds : Nat → String → String → String → Bool → Bool
  | 1, self, author, action, merged => author == self && action == "opened" && merged
  | 2, self, author, action, _ => author == self && action == "opened"
  | 3, self, author, action, merged => author == self && action == "closed" && merged
  | 4, self, author, _, merged => author == self && merged
  | 5, self, author, action, merged => author != self && action == "closed" && merged
  | 6, self, author, action, _ => author != self && action == "closed"
  | _, _, _, _, _ => false

/-- The status assigned by rule `k` of the table. -/
def ruleStatus : Nat → String
  | 1 => "Done"
  | 2 => "In Review"
  | 3 => "Done"
  | 4 => "Done"
  | 5 => "Reviewed and merged"
  | 6 => "Reviewed"
  | _ => ""

/-- The titles in the order the loop of `formatEvents` first encounters
them (the order in which `seenTitles[title] = true` is executed). -/
def firstSeenTitles : List Event → List String → List String
  | [], _ => []
  | e :: rest, seen =>
    match e.type_ with
    | none => firstSeenTitles rest seen
    | some _ =>
      if extractTitle e ∈ seen then firstSeenTitles rest seen
      else extractTitle e :: firstSeenTitles rest (extractTitle e :: seen)

/-- Modelled from the spec: the reference classifier of section 4.3,
whose step 1 skips any event whose `type` is neither of the two
pull-request types before the seen-title check; steps 2-5 are the same
extraction, deduplication and emission as the implementation. -/
def classifyEventsRef (self : String) : List Event → List String → List (String × String)
  | [], _ => []
  | e :: rest, seen =>
    if e.type_ = some "PullRequestEvent" ∨ e.type_ = some "PullRequestReviewEvent" then
      if extractTitle e ∈ seen then classifyEventsRef self rest seen
      else
        (if classifyStatus self (extractAuthor e) (extractAction e) (extractMerged e) ≠ "" ∧
            extractTitle e ≠ "" then
          [(classifyStatus self (extractAuthor e) (extractAction e) (extractMerged e),
            extractTitle e)]
        else []) ++ classifyEventsRef self rest (extractTitle e :: seen)
    else classifyEventsRef self rest seen

/-- Modelled from the spec: `formatEvents` built on the reference
classifier instead of the implemented one. -/
def formatEventsRef (self header : String) (events : List Event) : String :=
  header ++ ":\n" ++
  "• Done | Attended frail-check meeting\n" ++
  "• Done | Attended frail-check followup meeting\n" ++
  String.join ((classifyEventsRef self events []).map (fun p => classifiedLine p ++ "\n")) ++
  "Next:\n• Continue with assigned task and R&D\n"

/-- Every pair the loop emits has a title that was not yet seen, is
non-empty, and is classified from the first event of the list whose
`type` is a string and whose extracted title is that title. -/
lemma classify_first (self t s : String) (events : List Event) :
    ∀ seen : List String,
      (s, t) ∈ classifyEvents self events seen →
      t ∉ seen ∧ t ≠ "" ∧
        ∃ e, events.find? (fun e => e.type_.isSome && (extractTitle e == t)) = some e ∧
          s = classifyStatus self (extractAuthor e) (extractAction e) (extractMerged e) := by
  induction events with
  | nil => intro seen h; simp [classifyEvents] at h
  | cons e rest ih =>
    intro seen h
    rcases hty : e.type_ with _ | ty
    · simp only [classifyEvents, hty] at h
      obtain ⟨h1, h2, e', he', hs⟩ := ih seen h
      refine ⟨h1, h2, e', ?_, hs⟩
      rw [List.find?_cons_of_neg]
      · exact he'
      · simp [hty]
    · simp only [classifyEvents, hty] at h
      by_cases hmem : extractTitle e ∈ seen
      · rw [if_pos hmem] at h
        obtain ⟨h1, h2, e', he', hs⟩ := ih seen h
        have hne : extractTitle e ≠ t := fun hq => h1 (hq ▸ hmem)
        refine ⟨h1, h2, e', ?_, hs⟩
        rw [List.find?_cons_of_neg]
        · exact he'
        · simp [hty, hne]
      · rw [if_neg hmem] at h
        rcases List.mem_append.mp h with hin | hin
        · by_cases hcond : classifyStatus self (extractAuthor e) (extractAction e)
              (extractMerged e) ≠ "" ∧ extractTitle e ≠ ""
          · rw [if_pos hcond] at hin
            simp only [List.mem_singleton, Prod.mk.injEq] at hin
            obtain ⟨hs, ht⟩ := hin
            subst ht
            subst hs
            refine ⟨hmem, hcond.2, e, ?_, rfl⟩
            rw [List.find?_cons_of_pos]
            simp [hty]
          · rw [if_neg hcond] at hin
            simp at hin
        · obtain ⟨h1, h2, e', he', hs⟩ := ih _ hin
          have hts : t ∉ seen := fun hq => h1 (List.mem_cons_of_mem _ hq)
          have hne : extractTitle e ≠ t := fun hq => h1 (hq ▸ List.mem_cons_self _ _)
          refine ⟨hts, h2, e', ?_, hs⟩
          rw [List.find?_cons_of_neg]
          · exact he'
          · simp [hty, hne]

/-- Emitted titles are fresh: not in the seen set the loop started from,
and non-empty. -/
lemma classify_fresh (self : String) (events : List Event) (seen : List String)
    (p : String × String) (hp : p ∈ classifyEvents self events seen) :
    p.2 ∉ seen ∧ p.2 ≠ "" := by
  obtain ⟨h1, h2, _⟩ := classify_first self p.2 p.1 events seen hp
  exact ⟨h1, h2⟩

/-- No title occurs twice among the emitted pairs. -/
lemma classify_nodup (self : String) (events : List Event) :
    ∀ seen : List String, ((classifyEvents self events seen).map Prod.snd).Nodup := by
  induction events with
  | nil => intro seen; simp [classifyEvents]
  | cons e rest ih =>
    intro seen
    rcases hty : e.type_ with _ | ty
    · simpa only [classifyEvents, hty] using ih seen
    · simp only [classifyEvents, hty]
      by_cases hmem : extractTitle e ∈ seen
      · simpa only [if_pos hmem] using ih seen
      · rw [if_neg hmem]
        by_cases hcond : classifyStatus self (extractAuthor e) (extractAction e)
            (extractMerged e) ≠ "" ∧ extractTitle e ≠ ""
        · rw [if_pos hcond]
          simp only [List.singleton_append, List.map_cons, List.nodup_cons]
          refine ⟨?_, ih _⟩
          intro hcontra
          obtain ⟨p, hp, hp2⟩ := List.mem_map.mp hcontra
          exact (classify_fresh self rest _ p hp).1 (hp2 ▸ List.mem_cons_self _ _)
        · rw [if_neg hcond]
          simpa using ih (extractTitle e :: seen)

/-- Two seen sets that agree on every non-empty title drive the loop to
the same output: the empty pseudo-title can never be emitted, so whether
it is marked seen is unobservable. -/
lemma classify_seen_congr (self : String) (events : List Event) :
    ∀ s1 s2 : List String, (∀ t : String, t ≠ "" → (t ∈ s1 ↔ t ∈ s2)) →
      classifyEvents self events s1 = classifyEvents self events s2 := by
  induction events with
  | nil => intro s1 s2 _; simp [classifyEvents]
  | cons e rest ih =>
    intro s1 s2 hagree
    rcases hty : e.type_ with _ | ty
    · simp only [classifyEvents, hty]
      exact ih s1 s2 hagree
    · simp only [classifyEvents, hty]
      by_cases ht0 : extractTitle e = ""
      · have hnoemit : ¬ (classifyStatus self (extractAuthor e) (extractAction e)
            (extractMerged e) ≠ "" ∧ extractTitle e ≠ "") := fun hc => hc.2 ht0
        rw [if_neg hnoemit]
        have hcons1 : ∀ t : String, t ≠ "" → (t ∈ extractTitle e :: s1 ↔ t ∈ s2) := by
          intro t htne
          rw [List.mem_cons]
          constructor
          · rintro (hq | hq)
            · exact absurd (hq.trans ht0) htne
            · exact (hagree t htne).mp hq
          · intro hq; exact Or.inr ((hagree t htne).mpr hq)
        have hcons2 : ∀ t : String, t ≠ "" → (t ∈ s1 ↔ t ∈ extractTitle e :: s2) := by
          intro t htne
          rw [List.mem_cons]
          constructor
          · intro hq; exact Or.inr ((hagree t htne).mp hq)
          · rintro (hq | hq)
            · exact absurd (hq.trans ht0) htne
            · exact (hagree t htne).mpr hq
        have hcons12 : ∀ t : String, t ≠ "" →
            (t ∈ extractTitle e :: s1 ↔ t ∈ extractTitle e :: s2) := by
          intro t htne
          simp only [List.mem_cons]
          constructor
          · rintro (hq | hq)
            · exact Or.inl hq
            · exact Or.inr ((hagree t htne).mp hq)
          · rintro (hq | hq)
            · exact Or.inl hq
            · exact Or.inr ((hagree t htne).mpr hq)
        by_cases h1 : extractTitle e ∈ s1 <;> by_cases h2 : extractTitle e ∈ s2
        · rw [if_pos h1, if_pos h2]; exact ih s1 s2 hagree
        · rw [if_pos h1, if_neg h2]
          simpa using ih s1 (extractTitle e :: s2) hcons2
        · rw [if_neg h1, if_pos h2]
          simpa using ih (extractTitle e :: s1) s2 hcons1
        · rw [if_neg h1, if_neg h2]
          simpa using ih (extractTitle e :: s1) (extractTitle e :: s2) hcons12
      · have hmemiff : extractTitle e ∈ s1 ↔ extractTitle e ∈ s2 := hagree _ ht0
        by_cases h1 : extractTitle e ∈ s1
        · rw [if_pos h1, if_pos (hmemiff.mp h1)]
          exact ih s1 s2 hagree
        · rw [if_neg h1, if_neg (fun hq => h1 (hmemiff.mpr hq))]
          have : ∀ t : String, t ≠ "" →
              (t ∈ extractTitle e :: s1 ↔ t ∈ extractTitle e :: s2) := by
            intro t htne
            simp only [List.mem_cons]
            constructor
            · rintro (hq | hq)
              · exact Or.inl hq
              · exact Or.inr ((hagree t htne).mp hq)
            · rintro (hq | hq)
              · exact Or.inl hq
              · exact Or.inr ((hagree t htne).mpr hq)
          rw [ih (extractTitle e :: s1) (extractTitle e :: s2) this]

/-- An event that falls through the `switch` leaves `prTitle` at `""`. -/
lemma extractTitle_of_nonPR (e : Event) (h : nonPR e = true) : extractTitle e = "" := by
  rcases hty : e.type_ with _ | ty
  · simp [extractTitle, hty]
  · rw [nonPR, hty] at h
    simp only [isPRType, Bool.not_eq_true', Bool.or_eq_false_iff, beq_eq_false_iff_ne] at h
    simp [extractTitle, hty, h.1, h.2]

/-- Removing an event that falls through the `switch` (or whose `type` is
not a string) does not change the emitted pairs: it can only mark the
empty pseudo-title seen, which is unobservable. -/
lemma classify_skip_nonPR (self : String) (e : Event) (rest : List Event)
    (seen : List String) (h : nonPR e = true) :
    classifyEvents self (e :: rest) seen = classifyEvents self rest seen := by
  rcases hty : e.type_ with _ | ty
  · simp [classifyEvents, hty]
  · have ht0 : extractTitle e = "" := extractTitle_of_nonPR e h
    simp only [classifyEvents, hty]
    by_cases hmem : extractTitle e ∈ seen
    · rw [if_pos hmem]
    · rw [if_neg hmem]
      have hnoemit : ¬ (classifyStatus self (extractAuthor e) (extractAction e)
          (extractMerged e) ≠ "" ∧ extractTitle e ≠ "") := fun hc => hc.2 ht0
      rw [if_neg hnoemit, List.nil_append]
      apply classify_seen_congr
      intro t htne
      rw [ht0, List.mem_cons]
      constructor
      · rintro (hq | hq)
        · exact absurd hq htne
        · exact hq
      · exact Or.inr

/-- The implemented loop and the spec's reference classifier (which skips
non-pull-request events before the seen-title check) emit the same
pairs from the same seen set. -/
lemma classify_eq_ref (self : String) (events : List Event) :
    ∀ seen : List String,
      classifyEvents self events seen = classifyEventsRef self events seen := by
  induction events with
  | nil => intro seen; simp [classifyEvents, classifyEventsRef]
  | cons e rest ih =>
    intro seen
    by_cases hpr : e.type_ = some "PullRequestEvent" ∨ e.type_ = some "PullRequestReviewEvent"
    · rcases hpr with hty | hty
      · simp only [classifyEvents, classifyEventsRef, hty]
        rw [if_pos (Or.inl trivial)]
        by_cases hmem : extractTitle e ∈ seen
        · rw [if_pos hmem, if_pos hmem]; exact ih seen
        · rw [if_neg hmem, if_neg hmem, ih (extractTitle e :: seen)]
      · simp only [classifyEvents, classifyEventsRef, hty]
        rw [if_pos (Or.inr trivial)]
        by_cases hmem : extractTitle e ∈ seen
        · rw [if_pos hmem, if_pos hmem]; exact ih seen
        · rw [if_neg hmem, if_neg hmem, ih (extractTitle e :: seen)]
    · have hnon : nonPR e = true := by
        rcases hty : e.type_ with _ | ty
        · simp [nonPR, hty]
        · rw [hty] at hpr
          push_neg at hpr
          obtain ⟨h1, h2⟩ := hpr
          have hne1 : ty ≠ "PullRequestEvent" := fun hq => h1 (by rw [hq])
          have hne2 : ty ≠ "PullRequestReviewEvent" := fun hq => h2 (by rw [hq])
          simp [nonPR, hty, isPRType, hne1, hne2]
      rw [classify_skip_nonPR self e rest seen hnon, ih seen]
      rcases hty : e.type_ with _ | ty
      · rw [hty] at hpr
        simp only [classifyEventsRef, hty]
        rw [if_neg hpr]
      · rw [hty] at hpr
        simp only [classifyEventsRef, hty]
        rw [if_neg hpr]

/-- The emitted titles are a subsequence of the titles in first-seen
order: lines appear exactly in the order their titles were first
encountered, some titles simply producing no line. -/
lemma classify_sublist_firstSeen (self : String) (events : List Event) :
    ∀ seen : List String,
      List.Sublist ((classifyEvents self events seen).map Prod.snd)
        (firstSeenTitles events seen) := by
  induction events with
  | nil => intro seen; simp [classifyEvents, firstSeenTitles]
  | cons e rest ih =>
    intro seen
    rcases hty : e.type_ with _ | ty
    · simp only [classifyEvents, firstSeenTitles, hty]
      exact ih seen
    · simp only [classifyEvents, firstSeenTitles, hty]
      by_cases hmem : extractTitle e ∈ seen
      · rw [if_pos hmem, if_pos hmem]
        exact ih seen
      · rw [if_neg hmem, if_neg hmem]
        by_cases hcond : classifyStatus self (extractAuthor e) (extractAction e)
            (extractMerged e) ≠ "" ∧ extractTitle e ≠ ""
        · rw [if_pos hcond]
          simp only [List.singleton_append, List.map_cons]
          exact List.Sublist.cons₂ _ (ih (extractTitle e :: seen))
        · rw [if_neg hcond]
          simp only [List.nil_append]
          exact List.Sublist.cons _ (ih (extractTitle e :: seen))

/-- C1: the status `switch` of `formatEvents` evaluates the six rules of
spec section 4.3 as a strict priority chain: whenever an event's fields
satisfy rule `k` and no earlier rule — it may also satisfy any of the
rules after `k` — the assigned status is rule `k`'s status. -/
theorem classifyStatus_priority_chain (self author action : String) (merged : Bool)
    (k : Nat) (hk : ruleHolds k self author action merged = true)
    (hfirst : ∀ i, i < k → ruleHolds i self author action merged = false) :
    classifyStatus self author action merged = ruleStatus k := by
  rcases k with _ | _ | _ | _ | _ | _ | _ | k
  · exact Bool.noConfusion (show false = true from hk)
  · simp only [ruleHolds] at hk
    simp only [classifyStatus, ruleStatus]
    cases hb : (author == self) <;> cases ho : (action == "opened") <;>
      cases hc : (action == "closed") <;> cases merged <;> simp_all [bne]
  · have h1 := hfirst 1 (by omega)
    simp only [ruleHolds] at hk h1
    simp only [classifyStatus, ruleStatus]
    cases hb : (author == self) <;> cases ho : (action == "opened") <;>
      cases hc : (action == "closed") <;> cases merged <;> simp_all [bne]
  · have h1 := hfirst 1 (by omega)
    have h2 := hfirst 2 (by omega)
    simp only [ruleHolds] at hk h1 h2
    simp only [classifyStatus, ruleStatus]
    cases hb : (author == self) <;> cases ho : (action == "opened") <;>
      cases hc : (action == "closed") <;> cases merged <;> simp_all [bne]
  · have h2 := hfirst 2 (by omega)
    have h3 := hfirst 3 (by omega)
    simp only [ruleHolds] at hk h2 h3
    simp only [classifyStatus, ruleStatus]
    cases hb : (author == self) <;> cases ho : (action == "opened") <;>
      cases hc : (action == "closed") <;> cases merged <;> simp_all [bne]
  · simp only [ruleHolds] at hk
    simp only [classifyStatus, ruleStatus]
    cases hb : (author == self) <;> cases ho : (action == "opened") <;>
      cases hc : (action == "closed") <;> cases merged <;> simp_all [bne]
  · have h5 := hfirst 5 (by omega)
    simp only [ruleHolds] at hk h5
    simp only [classifyStatus, ruleStatus]
    cases hb : (author == self) <;> cases ho : (action == "opened") <;>
      cases hc : (action == "closed") <;> cases merged <;> simp_all [bne]
  · exact Bool.noConfusion (show false = true from hk)

/-- Witness for C1: a self-authored opened merged event matches rule 1
and also rules 2 and 4, and is assigned rule 1's status `"Done"` (never
`"In Review"`). -/
theorem classifyStatus_priority_chain_witness :
    classifyStatus "alice" "alice" "opened" true = "Done" ∧
    ruleHolds 2 "alice" "alice" "opened" true = true ∧
    ruleHolds 4 "alice" "alice" "opened" true = true :=
  ⟨classifyStatus_priority_chain "alice" "alice" "opened" true 1 (by decide)
      (fun i hi => by interval_cases i; decide),
    by decide, by decide⟩

/-- C7: for the empty event list the report is exactly the date header
(`Mon DD, YYYY` followed by `:`), the two fixed boilerplate `Done` lines,
and the trailing `Next` block, each line newline-terminated, with no
classified pull-request lines. -/
theorem empty_events_report (self : String) :
    formatEvents self (formatHeader 2024 1 2) [] =
      "Jan 02, 2024:\n• Done | Attended frail-check meeting\n• Done | Attended frail-check followup meeting\nNext:\n• Continue with assigned task and R&D\n" ∧
    reportLines self (formatHeader 2024 1 2) [] =
      ["Jan 02, 2024:", "• Done | Attended frail-check meeting",
        "• Done | Attended frail-check followup meeting", "Next:",
        "• Continue with assigned task and R&D"] :=
  ⟨rfl, rfl⟩

/-- Scenario C's event: a `PullRequestEvent` with `action = "closed"`,
`merged = false`, title `"Fix bug Y"`, authored by `author`. -/
def scenarioC (author : String) : Event :=
  ⟨some "PullRequestEvent", some "2024-01-02T09:00:00Z", some "closed",
    some false, some "Fix bug Y", some author, none⟩

/-- C6: for a single closed, unmerged pull-request event by another
author, rule 5 fails because `merged` is false, rule 6 matches on
`action == "closed"` regardless of `merged`, and the report contains the
line `• Reviewed | Fix bug Y`. -/
theorem scenarioC_reviewed_line (self author header : String) (h : author ≠ self) :
    ruleHolds 5 self author "closed" false = false ∧
    ruleHolds 6 self author "closed" false = true ∧
    "• Reviewed | Fix bug Y" ∈ reportLines self header [scenarioC author] := by
  have hb : (author == self) = false := beq_eq_false_iff_ne.mpr h
  refine ⟨by simp [ruleHolds], by simp [ruleHolds, bne, hb], ?_⟩
  have hclass : classifyEvents self [scenarioC author] [] = [("Reviewed", "Fix bug Y")] := by
    simp [classifyEvents, scenarioC, extractTitle, extractAuthor, extractAction,
      extractMerged, classifyStatus, hb, h]
  rw [reportLines, hclass]
  simp [classifiedLine]

/-- Witness for C6 at a concrete author distinct from the self user. -/
theorem scenarioC_reviewed_line_witness :
    ruleHolds 5 "alice" "bob" "closed" false = false ∧
    ruleHolds 6 "alice" "bob" "closed" false = true ∧
    "• Reviewed | Fix bug Y" ∈ reportLines "alice" "Jan 02, 2024" [scenarioC "bob"] :=
  scenarioC_reviewed_line "alice" "bob" "Jan 02, 2024" (by decide)

/-- The event of claim C10: a `PullRequestEvent` whose
`pull_request.user.login` leaf is missing or mistyped, so the extracted
author is the zero value `""`, with `merged` true. -/
def missingAuthorEvent (title action : String) : Event :=
  ⟨some "PullRequestEvent", none, some action, some true, some title, none, none⟩

/-- C10: when the configured self username is `""`, an event whose
extracted author is empty is classified by the self-side rules, because
the empty author compares equal to the empty username: with `merged`
true, an action matching neither `"opened"` nor `"closed"` (so rules 1-3
fail), and a non-empty unseen title, it emits `"Done"` via rule 4. -/
theorem empty_username_rule4_done (title action : String) (rest : List Event)
    (seen : List String) (hop : action ≠ "opened") (hcl : action ≠ "closed")
    (htne : title ≠ "") (hseen : title ∉ seen) :
    extractAuthor (missingAuthorEvent title action) = "" ∧
    ruleHolds 4 "" "" action true = true ∧
    ruleHolds 1 "" "" action true = false ∧
    ruleHolds 2 "" "" action true = false ∧
    ruleHolds 3 "" "" action true = false ∧
    classifyEvents "" (missingAuthorEvent title action :: rest) seen =
      ("Done", title) :: classifyEvents "" rest (title :: seen) := by
  have ho : (action == "opened") = false := beq_eq_false_iff_ne.mpr hop
  have hc : (action == "closed") = false := beq_eq_false_iff_ne.mpr hcl
  refine ⟨rfl, by simp [ruleHolds], by simp [ruleHolds, ho], by simp [ruleHolds, ho],
    by simp [ruleHolds, hc], ?_⟩
  simp [classifyEvents, missingAuthorEvent, extractTitle, extractAuthor, extractAction,
    extractMerged, classifyStatus, ho, hc, hseen, htne]

/-- Witness for C10 at a concrete title and action. -/
theorem empty_username_rule4_done_witness :
    extractAuthor (missingAuthorEvent "Fix X" "edited") = "" ∧
    ruleHolds 4 "" "" "edited" true = true ∧
    ruleHolds 1 "" "" "edited" true = false ∧
    ruleHolds 2 "" "" "edited" true = false ∧
    ruleHolds 3 "" "" "edited" true = false ∧
    classifyEvents "" [missingAuthorEvent "Fix X" "edited"] [] =
      ("Done", "Fix X") :: classifyEvents "" [] ["Fix X"] :=
  empty_username_rule4_done "Fix X" "edited" [] [] (by decide) (by decide) (by decide)
    (List.not_mem_nil "Fix X")

/-- The event of C2's counterexample: a merged, self-opened pull request
whose title coincides with the first boilerplate line's title. -/
def boilerplateTitleEvent : Event :=
  ⟨some "PullRequestEvent", some "2024-01-02T09:00:00Z", some "opened",
    some true, some "Attended frail-check meeting", some "alice", none⟩

/-- C2 does not hold over the whole output: when a pull-request title
equals a boilerplate line's title, the report contains two lines with
that same title (here even two identical lines). -/
theorem report_title_dedup_counterexample :
    ((reportLines "alice" "Jan 02, 2024" [boilerplateTitleEvent]).filterMap
      lineTitle).count "Attended frail-check meeting" = 2 := by decide

/-- C2 (amended): over the classified region of the report the dedup and
first-event properties do hold: no two classified lines share a title,
and each emitted pair is classified from the first event of the list
whose `type` is a string and whose extracted title is that pair's title.
(Over the whole output the claim fails, because a pull-request title can
coincide with a boilerplate title — see the counterexample.) -/
theorem classified_title_dedup (self : String) (events : List Event) :
    ((classifyEvents self events []).map Prod.snd).Nodup ∧
    ∀ s t : String, (s, t) ∈ classifyEvents self events [] →
      ∃ e, events.find? (fun e => e.type_.isSome && (extractTitle e == t)) = some e ∧
        s = classifyStatus self (extractAuthor e) (extractAction e) (extractMerged e) := by
  refine ⟨classify_nodup self events [], ?_⟩
  intro s t h
  obtain ⟨_, _, e, he, hs⟩ := classify_first self t s events [] h
  exact ⟨e, he, hs⟩

/-- Witness for C2 (amended) at a concrete list: the single `Reviewed`
pair of scenario C is classified from the first (only) event. -/
theorem classified_title_dedup_witness :
    ∃ e, List.find? (fun e => e.type_.isSome && (extractTitle e == "Fix bug Y"))
        [scenarioC "bob"] = some e ∧
      "Reviewed" = classifyStatus "alice" (extractAuthor e) (extractAction e)
        (extractMerged e) :=
  (classified_title_dedup "alice" [scenarioC "bob"]).2 "Reviewed" "Fix bug Y" (by decide)

/-- C3: for a processed event whose extracted title is unseen, a line
with that title occurs in the output exactly when both the computed
status and the title are non-empty — and then exactly once: the title is
marked seen either way, so no later event with the same title ever
produces a line. -/
theorem unseen_title_emission (self : String) (e : Event) (rest : List Event)
    (seen : List String) (hty : e.type_.isSome = true)
    (hseen : extractTitle e ∉ seen) :
    ((classifyEvents self (e :: rest) seen).map Prod.snd).count (extractTitle e) =
      if classifyStatus self (extractAuthor e) (extractAction e) (extractMerged e) ≠ "" ∧
          extractTitle e ≠ "" then 1 else 0 := by
  obtain ⟨ty, hty2⟩ := Option.isSome_iff_exists.mp hty
  have hzero : ((classifyEvents self rest (extractTitle e :: seen)).map Prod.snd).count
      (extractTitle e) = 0 := by
    rw [List.count_eq_zero]
    intro hmem
    obtain ⟨p, hp, hp2⟩ := List.mem_map.mp hmem
    exact (classify_fresh self rest _ p hp).1 (hp2 ▸ List.mem_cons_self _ _)
  simp only [classifyEvents, hty2]
  rw [if_neg hseen]
  by_cases hcond : classifyStatus self (extractAuthor e) (extractAction e)
      (extractMerged e) ≠ "" ∧ extractTitle e ≠ ""
  · rw [if_pos hcond, if_pos hcond]
    simp only [List.singleton_append, List.map_cons]
    rw [List.count_cons_self, hzero]
  · rw [if_neg hcond, if_neg hcond]
    simpa using hzero

/-- Scenario D's first event: `Refactor Z` by another author, opened and
unmerged, so no rule matches and no status is computed. -/
def scenarioD1 : Event :=
  ⟨some "PullRequestEvent", some "2024-01-02T09:00:00Z", some "opened",
    some false, some "Refactor Z", some "bob", none⟩

/-- Scenario D's second event: `Refactor Z` opened by the self user,
which alone would match rule 2. -/
def scenarioD2 : Event :=
  ⟨some "PullRequestEvent", some "2024-01-02T10:00:00Z", some "opened",
    some false, some "Refactor Z", some "alice", none⟩

/-- Witness for C3, scenario D: the first `Refactor Z` event matches no
rule, so no line is emitted for that title, and the later event that
would match rule 2 produces none either. -/
theorem unseen_title_emission_witness :
    ((classifyEvents "alice" [scenarioD1, scenarioD2] []).map Prod.snd).count
      "Refactor Z" = 0 := by
  have h := unseen_title_emission "alice" scenarioD1 [scenarioD2] [] rfl
    (List.not_mem_nil _)
  exact h.trans (by decide)

/-- The event of C4's counterexample: its timestamp carries the non-UTC
offset +09:00. -/
def offsetEvent : Event :=
  ⟨some "PullRequestEvent", some "2024-01-02T01:00:00+09:00", none, none, none,
    none, none⟩

/-- C4 as stated is false: this event's UTC calendar day is 2024-01-01,
not the target day 2024-01-02, yet the daily filter includes it for that
target, because Go formats the parsed time in the timestamp's own offset
rather than in UTC. -/
theorem daily_filter_utc_counterexample :
    offsetEvent ∈ getDailyEvents "2024-01-02" [offsetEvent] ∧
    (parseRFC3339 "2024-01-02T01:00:00+09:00").map utcEpochDay =
      some (epochDay 2024 1 1) ∧
    (parseRFC3339 "2024-01-02T00:00:00Z").map utcEpochDay =
      some (epochDay 2024 1 2) ∧
    epochDay 2024 1 1 ≠ epochDay 2024 1 2 := by decide

/-- C4 (amended): for every event whose `created_at` parses, the daily
filter includes it iff the calendar date written in the timestamp — its
wall-clock day in the timestamp's own offset, as `Format("2006-01-02")`
re-renders it — equals the target date string.  No normalization to UTC
occurs: a timestamp with a non-UTC offset is judged by its local day. -/
theorem daily_filter_local_day (date : String) (events : List Event) (e : Event)
    (s : String) (t : GoTime) (hmem : e ∈ events) (hca : e.created_at = some s)
    (hparse : parseRFC3339 s = some t) :
    e ∈ getDailyEvents date events ↔ formatDate2006 t = date := by
  have hkeep : keepEvent date e = (formatDate2006 t == date) := by
    simp only [keepEvent, hca, hparse]
  rw [getDailyEvents, List.mem_filter]
  constructor
  · intro h
    have h2 := h.2
    rw [hkeep] at h2
    exact beq_iff_eq.mp h2
  · intro h
    refine ⟨hmem, ?_⟩
    rw [hkeep]
    exact beq_iff_eq.mpr h

/-- The event of C4's witness: an all-UTC timestamp on the target day. -/
def utcEvent : Event :=
  ⟨some "PullRequestEvent", some "2024-01-02T05:00:00Z", none, none, none, none, none⟩

/-- Witness for C4 (amended) at a concrete UTC timestamp. -/
theorem daily_filter_local_day_witness :
    utcEvent ∈ getDailyEvents "2024-01-02" [utcEvent] :=
  (daily_filter_local_day "2024-01-02" [utcEvent] utcEvent "2024-01-02T05:00:00Z"
      ⟨2024, 1, 2, 5, 0, 0, 0⟩ (List.mem_singleton.mpr rfl) rfl (by decide)).mpr
    (by decide)

/-- C5: the daily filter yields a sublist of its input (original order
preserved, no event duplicated), and the classified lines' titles are a
subsequence of the titles in the order they are first encountered among
the daily events. -/
theorem filter_and_line_order (date self : String) (events : List Event) :
    List.Sublist (getDailyEvents date events) events ∧
    List.Sublist ((classifyEvents self events []).map Prod.snd)
      (firstSeenTitles events []) :=
  ⟨List.filter_sublist events, classify_sublist_firstSeen self events []⟩

/-- C8: an event whose `created_at` is missing, not a string, or fails
to parse is excluded from the daily set; an event whose `type` is
missing, not a string, or neither pull-request type contributes nothing
to the classified output.  Both are skipped silently — the embedded
functions are total, so no error is possible. -/
theorem silent_skip (date self : String) (events rest : List Event) (e : Event)
    (seen : List String) :
    (e.created_at.bind parseRFC3339 = none → e ∉ getDailyEvents date events) ∧
    (nonPR e = true →
      classifyEvents self (e :: rest) seen = classifyEvents self rest seen) := by
  constructor
  · intro hb hmem
    have hk : keepEvent date e = false := by
      rcases hca : e.created_at with _ | cs
      · simp [keepEvent, hca]
      · rw [hca] at hb
        simp only [Option.some_bind] at hb
        simp [keepEvent, hca, hb]
    rw [getDailyEvents] at hmem
    have h2 := (List.mem_filter.mp hmem).2
    rw [hk] at h2
    exact Bool.noConfusion h2
  · exact classify_skip_nonPR self e rest seen

/-- The event of C8's witness: a non-pull-request type and an
unparseable timestamp. -/
def malformedEvent : Event :=
  ⟨some "PushEvent", some "not-a-date", none, none, none, none, none⟩

/-- Witness for C8 at a concrete malformed event. -/
theorem silent_skip_witness :
    malformedEvent ∉ getDailyEvents "2024-01-02" [malformedEvent] ∧
    classifyEvents "alice" [malformedEvent] [] = classifyEvents "alice" [] [] :=
  ⟨(silent_skip "2024-01-02" "alice" [malformedEvent] [] malformedEvent []).1
      (by decide),
    (silent_skip "2024-01-02" "alice" [malformedEvent] [] malformedEvent []).2
      (by decide)⟩

/-- C9: the implemented classifier, in which a non-pull-request-typed
event falls through the `switch` with empty fields and marks the empty
pseudo-title seen, produces for every event list the same pairs and the
same report as the spec's reference classifier that skips such events
before the seen-title check: such an event never suppresses or alters
any later line. -/
theorem classifier_skip_refinement (self header : String) (events : List Event) :
    classifyEvents self events [] = classifyEventsRef self events [] ∧
    formatEvents self header events = formatEventsRef self header events := by
  refine ⟨classify_eq_ref self events [], ?_⟩
  rw [formatEvents, formatEventsRef, classify_eq_ref self events []]
